import Mathlib

/-!
Verification development for `database_server.py`, a small in-memory
key-value store speaking a RESP-style wire protocol.

The embedding models the byte stream as a `List Char` (each element one
byte; the payloads exercised here are ASCII, where UTF-8 encoding is the
identity), Python `str` and `bytes` values as `List Char`, and the Python
exceptions raised by the code as an explicit error type.  Each definition
carries a comment naming the source construct it embeds.
-/

namespace DbServer

/-- Python runtime values that flow through the server: the decoder
produces `str`, `Error` (the namedtuple), `int`, `bytes`, `list`, `dict`
and `None`; the command layer additionally builds tuples (argument
tuples).  `str` and `bytes` both carry their characters/bytes as
`List Char`. -/
inductive PyVal where
  | str (s : List Char)
  | bytes (b : List Char)
  | int (n : Int)
  | err (m : List Char)
  | list (xs : List PyVal)
  | tuple (xs : List PyVal)
  | dict (ps : List (PyVal × PyVal))
  | none

/-- Exceptions of the Python program: `Disconnect` (line 44),
`CommandError` with its message (line 41), and the built-in `ValueError`
(failed `int(...)`), `TypeError` (unhashable key, wrong call arity) and
`AttributeError` (missing `.split`/`.upper`).  `outOfFuel` is a modeling
artifact of the recursion fuel and is unreachable whenever the fuel
exceeds the stream length. -/
inductive PyExc where
  | disconnect
  | commandError (msg : List Char)
  | valueError
  | typeError
  | attributeError
  | outOfFuel
deriving DecidableEq

/-- Characters of Python's `str.split()` / `bytes.split()` whitespace
class (space, tab, newline, carriage return, vertical tab, form feed). -/
def pyIsSpace (c : Char) : Bool :=
  c == ' ' || c == '\t' || c == '\n' || c == '\r' || c == '\x0b' || c == '\x0c'

/-- Worker for `pySplit`: accumulates the current token (reversed). -/
def pySplitGo : List Char → List Char → List (List Char)
  | acc, [] => if acc.isEmpty then [] else [acc.reverse]
  | acc, c :: rest =>
    if pyIsSpace c then
      if acc.isEmpty then pySplitGo [] rest else acc.reverse :: pySplitGo [] rest
    else pySplitGo (c :: acc) rest

/-- Python's `s.split()` with no arguments: split on runs of whitespace,
producing no empty tokens. -/
def pySplit (cs : List Char) : List (List Char) := pySplitGo [] cs

/-- Python's `.upper()` on the ASCII range (the only characters the
commands use). -/
def pyUpper (cs : List Char) : List Char := cs.map Char.toUpper

/-- Python's `.rstrip('\r\n')`: drop every trailing `'\r'` or `'\n'`. -/
def pyRstrip (cs : List Char) : List Char :=
  (cs.reverse.dropWhile (fun c => c == '\r' || c == '\n')).reverse

/-- Python's `socket_file.readline()` on a binary stream: the bytes up to
and including the first `'\n'`, or everything remaining at EOF. -/
def pyReadline : List Char → List Char × List Char
  | [] => ([], [])
  | c :: rest =>
    if c = '\n' then ([c], rest)
    else
      let (l, r) := pyReadline rest
      (c :: l, r)

/-- Python's buffered `socket_file.read(n)`: at most `n` bytes (fewer at
EOF); a negative size reads everything remaining. -/
def pyRead (n : Int) (s : List Char) : List Char × List Char :=
  if n < 0 then (s, []) else (s.take n.toNat, s.drop n.toNat)

/-- Python's slice `[:-2]` on bytes: all but the last two bytes. -/
def pySliceDropTwo (cs : List Char) : List Char := cs.take (cs.length - 2)

/-- Decimal digit character for a value below ten. -/
def digitChar : Nat → Char
  | 0 => '0'
  | 1 => '1'
  | 2 => '2'
  | 3 => '3'
  | 4 => '4'
  | 5 => '5'
  | 6 => '6'
  | 7 => '7'
  | 8 => '8'
  | _ => '9'

/-- Little-endian decimal digits of `n`; the first argument is recursion
fuel (any value above `n` is exact). -/
def natToDigitsRev : Nat → Nat → List Nat
  | 0, _ => []
  | f + 1, n => if n < 10 then [n] else n % 10 :: natToDigitsRev f (n / 10)

/-- Python's `str(n)` for a non-negative integer. -/
def pyStrOfNat (n : Nat) : List Char :=
  ((natToDigitsRev (n + 1) n).reverse).map digitChar

/-- Python's `str(n)` for an integer (a leading `'-'` when negative). -/
def pyStrOfInt : Int → List Char
  | .ofNat m => pyStrOfNat m
  | .negSucc m => '-' :: pyStrOfNat (m + 1)

/-- Numeric value of a decimal digit character. -/
def digitVal (c : Char) : Nat := c.toNat - 48

/-- Value of a little-endian list of decimal digits. -/
def decDigitsVal : List Nat → Nat
  | [] => 0
  | d :: ds => d + 10 * decDigitsVal ds

/-- Parse a non-empty all-digit character list as a decimal numeral. -/
def parseDigits (cs : List Char) : Option Nat :=
  if cs.isEmpty then Option.none
  else if cs.all Char.isDigit then
    some (decDigitsVal ((cs.map digitVal).reverse))
  else Option.none

/-- Sign-and-digits step of `int(s)` after whitespace stripping. -/
def pyIntCore : List Char → Option Int
  | [] => Option.none
  | c :: rest =>
    if c = '-' then (parseDigits rest).map (fun n => -(n : Int))
    else if c = '+' then (parseDigits rest).map (fun n => (n : Int))
    else (parseDigits (c :: rest)).map (fun n => (n : Int))

/-- Python's `int(s)`: strip surrounding whitespace, an optional sign,
then a non-empty run of decimal digits; anything else raises
`ValueError` (modeled as `Option.none`).  Digit-group underscores, which
CPython also tolerates, never occur on this wire and are not modeled. -/
def pyInt (cs : List Char) : Option Int :=
  pyIntCore (((cs.dropWhile pyIsSpace).reverse.dropWhile pyIsSpace).reverse)

/-- Lowercase hexadecimal digit character. -/
def hexDigitChar (d : Nat) : Char :=
  if d < 10 then digitChar d
  else if d = 10 then 'a'
  else if d = 11 then 'b'
  else if d = 12 then 'c'
  else if d = 13 then 'd'
  else if d = 14 then 'e'
  else 'f'

/-- Escape of one byte inside CPython's `repr` of a bytes object with
quote character `q`. -/
def pyByteEsc (q : Char) (c : Char) : List Char :=
  if c = '\\' || c = q then ['\\', c]
  else if c = '\t' then ['\\', 't']
  else if c = '\n' then ['\\', 'n']
  else if c = '\r' then ['\\', 'r']
  else if c.toNat < 32 || c.toNat ≥ 127 then
    ['\\', 'x', hexDigitChar (c.toNat / 16 % 16), hexDigitChar (c.toNat % 16)]
  else [c]

/-- CPython's `repr` of a bytes object: `b` plus a quoted, escaped body.
The single quote is used unless the bytes contain one and no double
quote.  This is what `f-string` interpolation of a bytes value produces
(via `format` falling back to `str`/`repr`). -/
def pyBytesRepr (bs : List Char) : List Char :=
  let q : Char := if bs.contains '\x27' && !(bs.contains '"') then '"' else '\x27'
  'b' :: q :: (bs.map (pyByteEsc q)).flatten ++ [q]

/-- Substring test on character lists (used to state that a response does
or does not mention a command name). -/
def containsSub (needle hay : List Char) : Bool :=
  hay.tails.any (fun t => needle.isPrefixOf t)

mutual
/-- Python `==` on the values compared by this program.  Store keys are
always hashable values (`str`, `bytes`, `int`, the `Error` namedtuple,
`None`, tuples of these), on which `==` is structural; `dict` values are
unhashable and never reach a key comparison, so their (order-insensitive)
Python equality is left as structural inequality here. -/
def pyBeq : PyVal → PyVal → Bool
  | .str a, .str b => a == b
  | .bytes a, .bytes b => a == b
  | .int a, .int b => a == b
  | .err a, .err b => a == b
  | .none, .none => true
  | .list a, .list b => pyBeqList a b
  | .tuple a, .tuple b => pyBeqList a b
  | _, _ => false

/-- Elementwise `pyBeq` on lists. -/
def pyBeqList : List PyVal → List PyVal → Bool
  | [], [] => true
  | a :: as, b :: bs => pyBeq a b && pyBeqList as bs
  | _, _ => false
end

mutual
/-- Python hashability: `list` and `dict` are unhashable, a tuple is
hashable when all its elements are, everything else here is hashable. -/
def pyHashable : PyVal → Bool
  | .list _ => false
  | .dict _ => false
  | .tuple xs => pyHashableList xs
  | _ => true

/-- Conjunction of `pyHashable` over a list. -/
def pyHashableList : List PyVal → Bool
  | [] => true
  | x :: xs => pyHashable x && pyHashableList xs
end

/-- The store: an insertion-ordered association list modeling a Python
dict (`self._kv`) whose keys are unique under `pyBeq`. -/
abbrev Store := List (PyVal × PyVal)

/-- Python `d[k] = v` on a dict: update the value in place when the key
is present (keeping its position), otherwise append the new entry. -/
def storeSet : Store → PyVal → PyVal → Store
  | [], k, v => [(k, v)]
  | (k0, v0) :: rest, k, v =>
    if pyBeq k0 k then (k0, v) :: rest else (k0, v0) :: storeSet rest k v

/-- Python `del d[k]`: remove the entry with the given key. -/
def storeDel : Store → PyVal → Store
  | [], _ => []
  | (k0, v0) :: rest, k =>
    if pyBeq k0 k then rest else (k0, v0) :: storeDel rest k

/-- Raw dict lookup: `d.get(k)`, returning `None` when absent (the key is
assumed hashable). -/
def kvLookup (kv : Store) (k : PyVal) : PyVal :=
  match kv.find? (fun e => pyBeq e.1 k) with
  | some e => e.2
  | Option.none => .none

/-- Pair up a list positionally: `zip(xs[::2], xs[1::2])`, dropping a
trailing unpaired element. -/
def pairUp : List PyVal → List (PyVal × PyVal)
  | k :: v :: rest => (k, v) :: pairUp rest
  | _ => []

/-- Sequential dict construction `dict(zip(...))` (source line 93):
last write wins on duplicate keys, each insertion hash-checks its key
(`TypeError` on an unhashable key). -/
def pyDictOfPairs : Store → List (PyVal × PyVal) → Except PyExc Store
  | d, [] => .ok d
  | d, (k, v) :: rest =>
    if pyHashable k then pyDictOfPairs (storeSet d k v) rest
    else .error .typeError

/-- The string CPython produces for `Error.message` — the class-level
namedtuple field descriptor (`_tuplegetter`), not an instance message.
Source line 110 interpolates `Error.message` (the class attribute)
instead of `data.message`, so every encoded error line shows this fixed
descriptor repr. -/
def tupleGetterText : List Char :=
  "_tuplegetter(0, \x27Alias for field number 0\x27)".data

mutual
/-- Embeds `ProtocolHandler._write` (source lines 102-123), which builds
the response bytes.  Faithful to the source's f-strings: a bytes payload
is interpolated as its `repr` (line 106), an `Error` writes the class
attribute `Error.message` (line 110), and the dict header writes the two
literal percent characters of `f'%%...'` (line 116). -/
def pyWrite : PyVal → List Char
  | .str s => '+' :: s ++ ['\r', '\n']
  | .bytes b => '$' :: pyStrOfNat b.length ++ ['\r', '\n'] ++ pyBytesRepr b ++ ['\r', '\n']
  | .int n => ':' :: pyStrOfInt n ++ ['\r', '\n']
  | .err _ => '-' :: tupleGetterText ++ ['\r', '\n']
  | .list xs => '*' :: pyStrOfNat xs.length ++ ['\r', '\n'] ++ pyWriteList xs
  | .tuple xs => '*' :: pyStrOfNat xs.length ++ ['\r', '\n'] ++ pyWriteList xs
  | .dict ps => '%' :: '%' :: pyStrOfNat ps.length ++ ['\r', '\n'] ++ pyWritePairs ps
  | .none => '$' :: '-' :: '1' :: ['\r', '\n']

/-- Writes of the elements of a list/tuple, in order. -/
def pyWriteList : List PyVal → List Char
  | [] => []
  | x :: xs => pyWrite x ++ pyWriteList xs

/-- Writes of the entries of a dict: key then value, in order. -/
def pyWritePairs : List (PyVal × PyVal) → List Char
  | [] => []
  | (k, v) :: ps => pyWrite k ++ pyWrite v ++ pyWritePairs ps
end

/-- Embeds `handle_simple_string` (source line 69-70): one line, CRLF
stripped, returned as text. -/
def handle_simple_string (s : List Char) : Except PyExc (PyVal × List Char) :=
  let (line, s1) := pyReadline s
  .ok (.str (pyRstrip line), s1)

/-- Embeds `handle_error` (source line 72-73): one line, CRLF stripped,
wrapped as an `Error`. -/
def handle_error (s : List Char) : Except PyExc (PyVal × List Char) :=
  let (line, s1) := pyReadline s
  .ok (.err (pyRstrip line), s1)

/-- Embeds `handle_integer` (source line 75-76): one line, CRLF stripped,
parsed with `int(...)`. -/
def handle_integer (s : List Char) : Except PyExc (PyVal × List Char) :=
  let (line, s1) := pyReadline s
  match pyInt (pyRstrip line) with
  | Option.none => .error .valueError
  | some n => .ok (.int n, s1)

/-- Embeds `handle_string` (source lines 78-83): a length line; `-1`
returns `None` with no body read; otherwise read `length + 2` bytes and
drop the trailing two. -/
def handle_string (s : List Char) : Except PyExc (PyVal × List Char) :=
  let (line, s1) := pyReadline s
  match pyInt (pyRstrip line) with
  | Option.none => .error .valueError
  | some len =>
    if len = -1 then .ok (.none, s1)
    else
      let (body, s2) := pyRead (len + 2) s1
      .ok (.bytes (pySliceDropTwo body), s2)

mutual
/-- Embeds `ProtocolHandler.handle_request` (source lines 60-67): read
one tag byte — an empty read raises `Disconnect`; dispatch on the tag,
where a tag outside the handler table raises `CommandError('bad
request')` (the `except KeyError` branch).  The `*` and `%` bodies
(source `handle_array` lines 85-87 and `handle_dict` lines 89-93) are
inlined so that the recursion is structural on the fuel argument; each
reads a count line with `int(...)` and then decodes `count` (resp.
`count * 2`) further values — `range(n)` of a negative count is empty,
modeled by `Int.toNat`. -/
def handle_request : Nat → List Char → Except PyExc (PyVal × List Char)
  | 0, _ => .error .outOfFuel
  | _ + 1, [] => .error .disconnect
  | fuel + 1, c :: rest =>
    if c = '+' then handle_simple_string rest
    else if c = '-' then handle_error rest
    else if c = ':' then handle_integer rest
    else if c = '$' then handle_string rest
    else if c = '*' then
      let (line, s1) := pyReadline rest
      match pyInt (pyRstrip line) with
      | Option.none => .error .valueError
      | some n =>
        match decode_seq fuel n.toNat s1 with
        | .error e => .error e
        | .ok (vs, s2) => .ok (.list vs, s2)
    else if c = '%' then
      let (line, s1) := pyReadline rest
      match pyInt (pyRstrip line) with
      | Option.none => .error .valueError
      | some n =>
        match decode_seq fuel (n * 2).toNat s1 with
        | .error e => .error e
        | .ok (vs, s2) =>
          match pyDictOfPairs [] (pairUp vs) with
          | .error e => .error e
          | .ok d => .ok (.dict d, s2)
    else .error (.commandError "bad request".data)

/-- The list comprehensions of `handle_array`/`handle_dict`: decode `k`
consecutive values by full tag dispatch, preserving order. -/
def decode_seq : Nat → Nat → List Char → Except PyExc (List PyVal × List Char)
  | _, 0, s => .ok ([], s)
  | 0, _ + 1, _ => .error .outOfFuel
  | fuel + 1, k + 1, s =>
    match handle_request fuel s with
    | .error e => .error e
    | .ok (v, s1) =>
      match decode_seq fuel k s1 with
      | .error e => .error e
      | .ok (vs, s2) => .ok (v :: vs, s2)
end

/-- Decode one request from the stream: `handle_request` with fuel
exceeding the stream length (every recursive call strictly shrinks the
stream, so this fuel is never exhausted). -/
def decode (s : List Char) : Except PyExc (PyVal × List Char) :=
  handle_request (s.length + 1) s

/-- Embeds `Server.get` (source lines 137-138): `self._kv.get(key)`.
The handler is called `(*data[1:])`, so any argument count other than
one raises `TypeError`. -/
def Server.get (kv : Store) (args : List PyVal) : Except PyExc PyVal × Store :=
  match args with
  | [key] =>
    if pyHashable key then (.ok (kvLookup kv key), kv)
    else (.error .typeError, kv)
  | _ => (.error .typeError, kv)

/-- Embeds `Server.set` (source lines 140-142): store and return `1`. -/
def Server.set (kv : Store) (args : List PyVal) : Except PyExc PyVal × Store :=
  match args with
  | [key, value] =>
    if pyHashable key then (.ok (.int 1), storeSet kv key value)
    else (.error .typeError, kv)
  | _ => (.error .typeError, kv)

/-- Embeds `Server.delete` (source lines 144-148): remove if present,
returning `1`, else `0`. -/
def Server.delete (kv : Store) (args : List PyVal) : Except PyExc PyVal × Store :=
  match args with
  | [key] =>
    if pyHashable key then
      if kv.any (fun e => pyBeq e.1 key) then (.ok (.int 1), storeDel kv key)
      else (.ok (.int 0), kv)
    else (.error .typeError, kv)
  | _ => (.error .typeError, kv)

/-- Embeds `Server.flush` (source lines 150-153): return the entry count
and clear the store.  `flush(self)` takes no further arguments. -/
def Server.flush (kv : Store) (args : List PyVal) : Except PyExc PyVal × Store :=
  match args with
  | [] => (.ok (.int kv.length), [])
  | _ => (.error .typeError, kv)

/-- Embeds `Server.mget` (source lines 155-156) faithfully to its code,
`[self._kv.get(keys) for key in keys]`: each iteration looks up `keys` —
the whole argument tuple — rather than the iteration variable `key`.
The argument tuple is modeled with the `tuple` constructor. -/
def Server.mget (kv : Store) (args : List PyVal) : Except PyExc PyVal × Store :=
  if args.isEmpty then (.ok (.list []), kv)
  else if pyHashable (.tuple args) then
    (.ok (.list (args.map (fun _ => kvLookup kv (.tuple args)))), kv)
  else (.error .typeError, kv)

/-- Worker for `Server.mset`: the `for key, value in data` loop. -/
def msetGo : Store → List (PyVal × PyVal) → Except PyExc PyVal × Store
  | kv, [] => (.ok (.int 1), kv)
  | kv, (k, v) :: rest =>
    if pyHashable k then msetGo (storeSet kv k v) rest
    else (.error .typeError, kv)

/-- Embeds `Server.mset` (source lines 158-162): pair the arguments
positionally (`zip(items[::2], items[1::2])` silently drops a trailing
odd argument), store each pair in order, return `1`.  An unhashable key
raises `TypeError` after the earlier pairs were already stored. -/
def Server.mset (kv : Store) (args : List PyVal) : Except PyExc PyVal × Store :=
  msetGo kv (pairUp args)

/-- The six handlers of the command table. -/
inductive Cmd where
  | get
  | set
  | delete
  | flush
  | mget
  | mset
deriving DecidableEq

/-- Embeds `Server.get_commands` (source lines 164-172) with its literal
keys — note the misspelled `'FlUSH'` on line 169. -/
def get_commands : List (List Char × Cmd) :=
  [("GET".data, Cmd.get), ("SET".data, Cmd.set), ("DELETE".data, Cmd.delete),
   ("FlUSH".data, Cmd.flush), ("MGET".data, Cmd.mget), ("MSET".data, Cmd.mset)]

/-- Dict membership `command in self._commands`: a `str` command matches
a key by string equality; a `bytes` command never equals a `str` key. -/
def lookupCommand (command : PyVal) : Option Cmd :=
  match command with
  | .str cs =>
    match get_commands.find? (fun e => e.1 == cs) with
    | some e => some e.2
    | Option.none => Option.none
  | _ => Option.none

/-- Dispatch to the bound method of the command table. -/
def runCmd : Cmd → Store → List PyVal → Except PyExc PyVal × Store
  | .get, kv, args => Server.get kv args
  | .set, kv, args => Server.set kv args
  | .delete, kv, args => Server.delete kv args
  | .flush, kv, args => Server.flush kv args
  | .mget, kv, args => Server.mget kv args
  | .mset, kv, args => Server.mset kv args

/-- The `data.split()` step of `get_response` (source lines 190-194): a
list is used as-is; `str` and `bytes` split on whitespace; anything else
has no `.split` and the bare `except` turns that into
`CommandError('Request must be list or simple string')`. -/
def pySplitVal : PyVal → Except PyExc (List PyVal)
  | .list xs => .ok xs
  | .str cs => .ok ((pySplit cs).map PyVal.str)
  | .bytes bs => .ok ((pySplit bs).map PyVal.bytes)
  | _ => .error (.commandError "Request must be list or simple string".data)

/-- The `data[0].upper()` step (source line 199): `str` and `bytes`
upper-case; any other token type has no `.upper` and the resulting
`AttributeError` is uncaught. -/
def pyUpperVal : PyVal → Except PyExc PyVal
  | .str cs => .ok (.str (pyUpper cs))
  | .bytes bs => .ok (.bytes (pyUpper bs))
  | _ => .error .attributeError

/-- F-string interpolation of a command token into the `'Unrecognized
command : ...'` message: a `str` inserts its text, a `bytes` its repr. -/
def pyFormatVal : PyVal → List Char
  | .str cs => cs
  | .bytes bs => pyBytesRepr bs
  | _ => []

/-- Embeds `Server.get_response` (source lines 189-204): normalize the
request to a token list, reject an empty one, upper-case the first token,
look it up in the command table, and invoke the handler on the remaining
tokens. -/
def get_response (kv : Store) (data : PyVal) : Except PyExc PyVal × Store :=
  match pySplitVal data with
  | .error e => (.error e, kv)
  | .ok tokens =>
    match tokens with
    | [] => (.error (.commandError "Missing Command".data), kv)
    | t0 :: args =>
      match pyUpperVal t0 with
      | .error e => (.error e, kv)
      | .ok command =>
        match lookupCommand command with
        | Option.none =>
          (.error (.commandError ("Unrecognized command : ".data ++ pyFormatVal command)), kv)
        | some c => runCmd c kv args

/-- Embeds `Server.connection_handler` (source lines 174-187): loop —
decode one request (`Disconnect` breaks the loop cleanly; any other
decoding exception is uncaught and kills only this connection's task),
dispatch it (`CommandError` becomes an `Error` response; any other
exception is uncaught and kills the task), write the encoded response,
repeat.  Returns the bytes written and the final store.  The fuel bounds
the number of loop iterations. -/
def connection_handler (fuel : Nat) (kv : Store) (input : List Char) : List Char × Store :=
  match fuel with
  | 0 => ([], kv)
  | fuel + 1 =>
    match decode input with
    | .error .disconnect => ([], kv)
    | .error _ => ([], kv)
    | .ok (data, rest) =>
      match get_response kv data with
      | (.ok resp, kv2) =>
        let (out, kv3) := connection_handler fuel kv2 rest
        (pyWrite resp ++ out, kv3)
      | (.error (.commandError m), kv2) =>
        let (out, kv3) := connection_handler fuel kv2 rest
        (pyWrite (.err m) ++ out, kv3)
      | (.error _, kv2) => ([], kv2)

/-- Values whose encoding is a single self-delimiting line that the
decoder reads back exactly: integers, and text free of CR/LF. -/
def simpleTok : PyVal → Bool
  | .int _ => true
  | .str cs => cs.all (fun c => !(c == '\r' || c == '\n'))
  | _ => false

/-! Helper lemmas about the character-level primitives. -/

theorem dropWhile_eq_self_of (p : Char → Bool) (l : List Char)
    (h : ∀ c ∈ l, p c = false) : l.dropWhile p = l := by
  cases l with
  | nil => rfl
  | cons c cs => simp [List.dropWhile_cons, h c (by simp)]

theorem pyRstrip_of_clean (l : List Char)
    (h : ∀ c ∈ l, (c == '\r' || c == '\n') = false) : pyRstrip l = l := by
  unfold pyRstrip
  rw [dropWhile_eq_self_of _ _ (by intro c hc; exact h c (List.mem_reverse.mp hc))]
  exact List.reverse_reverse l

theorem pyRstrip_append_crlf (l : List Char)
    (h : ∀ c ∈ l, (c == '\r' || c == '\n') = false) :
    pyRstrip (l ++ ['\r', '\n']) = l := by
  unfold pyRstrip
  rw [List.reverse_append]
  simp only [List.reverse_cons, List.reverse_nil, List.nil_append, List.cons_append,
    List.dropWhile_cons]
  norm_num
  rw [dropWhile_eq_self_of _ _ (by intro c hc; exact h c (List.mem_reverse.mp hc))]
  exact List.reverse_reverse l

theorem pyReadline_append (l rest : List Char) (h : '\n' ∉ l) :
    pyReadline (l ++ '\n' :: rest) = (l ++ ['\n'], rest) := by
  induction l with
  | nil => simp [pyReadline]
  | cons c cs ih =>
    have hc : ¬(c = '\n') := by
      intro hcn
      exact h (hcn ▸ List.mem_cons_self c cs)
    have hcs : '\n' ∉ cs := fun hm => h (List.mem_cons_of_mem c hm)
    simp [pyReadline, hc, ih hcs]

/-! Helper lemmas about decimal printing and parsing. -/

theorem digitVal_digitChar : ∀ d, d < 10 → digitVal (digitChar d) = d := by decide

theorem digitChar_mem_ten : ∀ d, d < 10 →
    digitChar d ∈ ['0', '1', '2', '3', '4', '5', '6', '7', '8', '9'] := by decide

theorem isDigit_of_mem_ten :
    ∀ c ∈ ['0', '1', '2', '3', '4', '5', '6', '7', '8', '9'], c.isDigit = true := by decide

theorem natToDigitsRev_lt : ∀ f n d, d ∈ natToDigitsRev f n → d < 10 := by
  intro f
  induction f with
  | zero => intro n d hd; simp [natToDigitsRev] at hd
  | succ f ih =>
    intro n d hd
    unfold natToDigitsRev at hd
    by_cases h10 : n < 10
    · simp [h10] at hd
      omega
    · simp [h10] at hd
      rcases hd with h | h
      · omega
      · exact ih _ _ h

theorem decDigitsVal_natToDigitsRev : ∀ f n, n < f →
    decDigitsVal (natToDigitsRev f n) = n := by
  intro f
  induction f with
  | zero => intro n h; omega
  | succ f ih =>
    intro n h
    unfold natToDigitsRev
    by_cases h10 : n < 10
    · simp [h10, decDigitsVal]
    · have hdiv : n / 10 < f := by omega
      simp [h10, decDigitsVal, ih _ hdiv]
      omega

theorem natToDigitsRev_ne_nil : ∀ f n, 0 < f → natToDigitsRev f n ≠ [] := by
  intro f n hf
  cases f with
  | zero => omega
  | succ f =>
    unfold natToDigitsRev
    by_cases h10 : n < 10 <;> simp [h10]

theorem mem_pyStrOfNat : ∀ n c, c ∈ pyStrOfNat n →
    c ∈ ['0', '1', '2', '3', '4', '5', '6', '7', '8', '9'] := by
  intro n c hc
  unfold pyStrOfNat at hc
  rcases List.mem_map.mp hc with ⟨d, hd, rfl⟩
  exact digitChar_mem_ten d (natToDigitsRev_lt _ _ _ (List.mem_reverse.mp hd))

theorem pyStrOfNat_ne_nil (n : Nat) : pyStrOfNat n ≠ [] := by
  unfold pyStrOfNat
  simp [natToDigitsRev_ne_nil (n + 1) n (Nat.succ_pos n)]

theorem parseDigits_pyStrOfNat (n : Nat) : parseDigits (pyStrOfNat n) = some n := by
  unfold parseDigits
  rw [if_neg (by simp [List.isEmpty_iff, pyStrOfNat_ne_nil n])]
  rw [if_pos (by
    rw [List.all_eq_true]
    intro c hc
    exact isDigit_of_mem_ten c (mem_pyStrOfNat n c hc))]
  congr 1
  unfold pyStrOfNat
  rw [List.map_map]
  rw [List.map_congr_left (g := id) (by
    intro d hd
    exact digitVal_digitChar d (natToDigitsRev_lt _ _ _ (List.mem_reverse.mp hd)))]
  rw [List.map_id, List.reverse_reverse]
  exact decDigitsVal_natToDigitsRev (n + 1) n (Nat.lt_succ_self n)

theorem mem_ten_not_space :
    ∀ c ∈ ['0', '1', '2', '3', '4', '5', '6', '7', '8', '9'], pyIsSpace c = false := by decide

theorem mem_ten_ne_crlf :
    ∀ c ∈ ['0', '1', '2', '3', '4', '5', '6', '7', '8', '9'],
      (c == '\r' || c == '\n') = false := by decide

theorem pyStrOfNat_not_space (n : Nat) : ∀ c ∈ pyStrOfNat n, pyIsSpace c = false :=
  fun c hc => mem_ten_not_space c (mem_pyStrOfNat n c hc)

theorem pyStrOfInt_not_space (n : Int) : ∀ c ∈ pyStrOfInt n, pyIsSpace c = false := by
  intro c hc
  cases n with
  | ofNat m => exact pyStrOfNat_not_space m c hc
  | negSucc m =>
    unfold pyStrOfInt at hc
    rcases List.mem_cons.mp hc with rfl | hc
    · decide
    · exact pyStrOfNat_not_space _ c hc

theorem pyStrOfInt_ne_crlf (n : Int) :
    ∀ c ∈ pyStrOfInt n, (c == '\r' || c == '\n') = false := by
  intro c hc
  cases n with
  | ofNat m => exact mem_ten_ne_crlf c (mem_pyStrOfNat m c hc)
  | negSucc m =>
    unfold pyStrOfInt at hc
    rcases List.mem_cons.mp hc with rfl | hc
    · decide
    · exact mem_ten_ne_crlf c (mem_pyStrOfNat _ c hc)

theorem newline_not_mem_pyStrOfInt (n : Int) : '\n' ∉ pyStrOfInt n := by
  intro h
  have := pyStrOfInt_ne_crlf n '\n' h
  simp at this

theorem stripWs_eq_self (l : List Char) (h : ∀ c ∈ l, pyIsSpace c = false) :
    ((l.dropWhile pyIsSpace).reverse.dropWhile pyIsSpace).reverse = l := by
  rw [dropWhile_eq_self_of _ _ h]
  rw [dropWhile_eq_self_of _ _ (by intro c hc; exact h c (List.mem_reverse.mp hc))]
  exact List.reverse_reverse l

theorem pyInt_pyStrOfNat (m : Nat) : pyInt (pyStrOfNat m) = some (m : Int) := by
  unfold pyInt
  rw [stripWs_eq_self _ (pyStrOfNat_not_space m)]
  rcases hcs : pyStrOfNat m with _ | ⟨c, rest⟩
  · exact absurd hcs (pyStrOfNat_ne_nil m)
  · have hmem : c ∈ pyStrOfNat m := by rw [hcs]; exact List.mem_cons_self c rest
    have hten := mem_pyStrOfNat m c hmem
    have hminus : ¬(c = '-') := by
      intro h; rw [h] at hten; simp at hten
    have hplus : ¬(c = '+') := by
      intro h; rw [h] at hten; simp at hten
    rw [pyIntCore, if_neg hminus, if_neg hplus, ← hcs, parseDigits_pyStrOfNat m]
    rfl

theorem pyInt_pyStrOfInt (n : Int) : pyInt (pyStrOfInt n) = some n := by
  cases n with
  | ofNat m => exact pyInt_pyStrOfNat m
  | negSucc m =>
    unfold pyInt
    rw [stripWs_eq_self _ (pyStrOfInt_not_space (Int.negSucc m))]
    rw [show pyStrOfInt (Int.negSucc m) = '-' :: pyStrOfNat (m + 1) from rfl]
    rw [pyIntCore, if_pos rfl, parseDigits_pyStrOfNat (m + 1)]
    simp [Int.negSucc_eq]

/-! Helper lemmas about the decoder on well-formed frames. -/

theorem handle_request_pyWrite_simple (fuel : Nat) (v : PyVal) (rest : List Char)
    (h : simpleTok v = true) :
    handle_request (fuel + 1) (pyWrite v ++ rest) = .ok (v, rest) := by
  cases v with
  | str cs =>
    have hclean : ∀ c ∈ cs, (c == '\r' || c == '\n') = false := by
      intro c hc
      have := List.all_eq_true.mp h c hc
      simpa using this
    have hnl : '\n' ∉ cs ++ ['\r'] := by
      intro hm
      rcases List.mem_append.mp hm with hm | hm
      · have := hclean _ hm; simp at this
      · simp at hm
    have harr : pyWrite (.str cs) ++ rest = '+' :: ((cs ++ ['\r']) ++ '\n' :: rest) := by
      simp [pyWrite]
    rw [harr]
    unfold handle_request
    rw [if_pos rfl]
    unfold handle_simple_string
    rw [pyReadline_append _ _ hnl]
    have hjoin : (cs ++ ['\r']) ++ ['\n'] = cs ++ ['\r', '\n'] := by simp
    simp only [hjoin, pyRstrip_append_crlf _ hclean]
  | int n =>
    have hnl : '\n' ∉ pyStrOfInt n ++ ['\r'] := by
      intro hm
      rcases List.mem_append.mp hm with hm | hm
      · exact newline_not_mem_pyStrOfInt n hm
      · simp at hm
    have harr : pyWrite (.int n) ++ rest = ':' :: ((pyStrOfInt n ++ ['\r']) ++ '\n' :: rest) := by
      simp [pyWrite]
    rw [harr]
    unfold handle_request
    rw [if_neg (by decide), if_neg (by decide), if_pos rfl]
    unfold handle_integer
    rw [pyReadline_append _ _ hnl]
    have hjoin : (pyStrOfInt n ++ ['\r']) ++ ['\n'] = pyStrOfInt n ++ ['\r', '\n'] := by simp
    simp only [hjoin, pyRstrip_append_crlf _ (pyStrOfInt_ne_crlf n), pyInt_pyStrOfInt n]
  | bytes b => simp [simpleTok] at h
  | err m => simp [simpleTok] at h
  | list xs => simp [simpleTok] at h
  | tuple xs => simp [simpleTok] at h
  | dict ps => simp [simpleTok] at h
  | none => simp [simpleTok] at h

theorem decode_seq_pyWriteList (vs : List PyVal) : ∀ (fuel : Nat) (rest : List Char),
    vs.all simpleTok = true →
    decode_seq (vs.length + fuel + 1) vs.length (pyWriteList vs ++ rest) = .ok (vs, rest) := by
  induction vs with
  | nil =>
    intro fuel rest _
    simp [decode_seq, pyWriteList]
  | cons v vs ih =>
    intro fuel rest hall
    have hv : simpleTok v = true := by
      have := List.all_eq_true.mp hall v (List.mem_cons_self v vs)
      simpa using this
    have hvs : vs.all simpleTok = true := by
      rw [List.all_eq_true]
      intro x hx
      exact List.all_eq_true.mp hall x (List.mem_cons_of_mem v hx)
    have hlen : (v :: vs).length + fuel + 1 = ((vs.length + fuel) + 1) + 1 := by
      simp [List.length_cons]; omega
    have harr : pyWriteList (v :: vs) ++ rest = pyWrite v ++ (pyWriteList vs ++ rest) := by
      simp [pyWriteList]
    rw [hlen, harr, show (v :: vs).length = vs.length + 1 from rfl]
    unfold decode_seq
    rw [handle_request_pyWrite_simple _ _ _ hv]
    simp only [ih fuel rest hvs]

/-! Helper lemmas about the store operations and dispatch. -/

theorem Server_get_snd (kv : Store) (args : List PyVal) : (Server.get kv args).2 = kv := by
  unfold Server.get
  rcases args with _ | ⟨a, _ | ⟨b, t⟩⟩
  · rfl
  · by_cases h : pyHashable a <;> simp [h]
  · rfl

theorem Server_mget_snd (kv : Store) (args : List PyVal) : (Server.mget kv args).2 = kv := by
  unfold Server.mget
  by_cases h1 : args.isEmpty <;> by_cases h2 : pyHashable (.tuple args) <;> simp [h1, h2]

theorem get_response_GET_eq (kv : Store) (key : PyVal) :
    get_response kv (.list [.str "GET".data, key]) = Server.get kv [key] := by
  unfold get_response
  simp only [show pySplitVal (.list [.str "GET".data, key]) = .ok [.str "GET".data, key]
      from rfl,
    show pyUpperVal (.str "GET".data) = .ok (.str "GET".data) from rfl,
    show lookupCommand (.str "GET".data) = some Cmd.get from rfl,
    runCmd]

theorem get_response_MGET_eq (kv : Store) (keys : List PyVal) :
    get_response kv (.list (.str "MGET".data :: keys)) = Server.mget kv keys := by
  unfold get_response
  simp only [show pySplitVal (.list (.str "MGET".data :: keys)) =
      .ok (.str "MGET".data :: keys) from rfl,
    show pyUpperVal (.str "MGET".data) = .ok (.str "MGET".data) from rfl,
    show lookupCommand (.str "MGET".data) = some Cmd.mget from rfl,
    runCmd]

/-! Claim theorems. -/

/-- C1: the claim states `decode(encode(v)) == v` for every constructible
value.  The code refutes it: encoding a bytes value interpolates the
Python `repr` of the bytes into the frame (source line 106), so
`b"foobar"` is framed as `$6\r\nb'foobar'\r\n` and decodes to a different
six-byte value; encoding an `Error` writes the class attribute
`Error.message` — a fixed descriptor repr — instead of the message
(line 110); and a dict is framed with a double `%%` tag (line 116), which
the decoder rejects with `ValueError` when `int('%...')` fails. -/
theorem claim1_roundtrip_failure :
    decode (pyWrite (.bytes "foobar".data)) =
      .ok (.bytes "b\x27foob".data, "\x27\r\n".data) ∧
    PyVal.bytes "b\x27foob".data ≠ PyVal.bytes "foobar".data ∧
    decode (pyWrite (.err "boom".data)) = .ok (.err tupleGetterText, []) ∧
    PyVal.err tupleGetterText ≠ PyVal.err "boom".data ∧
    decode (pyWrite (.dict [(.str "a".data, .str "b".data)])) = .error .valueError := by
  refine ⟨rfl, ?_, rfl, ?_, rfl⟩
  · intro h
    exact absurd (PyVal.bytes.inj h) (by decide)
  · intro h
    exact absurd (PyVal.err.inj h) (by decide)

/-- C2: the claim states that after `MSET a 1 b 2`, `MGET a b c` returns
`[1, 2, null]`.  The code refutes it: `mget` evaluates
`self._kv.get(keys)` — the whole argument tuple — on every iteration
(source line 156), so every requested key yields `None` regardless of the
store, and the reply is `[null, null, null]`. -/
theorem claim2_mget_tuple_bug :
    get_response [] (.list [.str "MSET".data, .str "a".data, .str "1".data,
      .str "b".data, .str "2".data]) =
      (.ok (.int 1), [(.str "a".data, .str "1".data), (.str "b".data, .str "2".data)]) ∧
    get_response [(.str "a".data, .str "1".data), (.str "b".data, .str "2".data)]
      (.list [.str "MGET".data, .str "a".data, .str "b".data, .str "c".data]) =
      (.ok (.list [.none, .none, .none]),
       [(.str "a".data, .str "1".data), (.str "b".data, .str "2".data)]) ∧
    PyVal.list [.none, .none, .none] ≠
      PyVal.list [.str "1".data, .str "2".data, .none] := by
  refine ⟨rfl, rfl, ?_⟩
  intro h
  have := PyVal.list.inj h
  simp at this

/-- C3: the claim states a mapping is encoded as a single `%` tag byte
followed by the entry count.  The code refutes it: the f-string
`f'%%{len(data)}\r\n'` (source line 116) emits two literal percent
characters, so every dict frame begins `%%`, and the sample dict
`{"a": "b"}` is framed as `%%1\r\n+a\r\n+b\r\n` rather than
`%1\r\n+a\r\n+b\r\n`. -/
theorem claim3_dict_double_percent :
    (∀ ps : List (PyVal × PyVal), (pyWrite (.dict ps)).take 2 = ['%', '%']) ∧
    pyWrite (.dict [(.str "a".data, .str "b".data)]) = "%%1\r\n+a\r\n+b\r\n".data ∧
    pyWrite (.dict [(.str "a".data, .str "b".data)]) ≠
      '%' :: pyStrOfNat 1 ++ "\r\n+a\r\n+b\r\n".data := by
  refine ⟨?_, rfl, by decide⟩
  intro ps
  simp [pyWrite]

/-- C4: the claim states an unknown command `FOO` is answered with a `-`
line whose text contains the command name, the connection staying usable.
The connection does stay usable (the follow-up `SET x 1` succeeds and is
answered `:1`), and the `CommandError` message does contain `FOO`; but
the encoded `-` line carries `str(Error.message)` — the namedtuple class
field descriptor (source line 110) — which does not mention `FOO`. -/
theorem claim4_unknown_command_descriptor :
    connection_handler 3 [] "+FOO\r\n+SET x 1\r\n".data =
      ('-' :: tupleGetterText ++ '\r' :: '\n' :: ":1\r\n".data,
       [(.str "x".data, .str "1".data)]) ∧
    get_response [] (.str "FOO".data) =
      (.error (.commandError "Unrecognized command : FOO".data), []) ∧
    containsSub "FOO".data "Unrecognized command : FOO".data = true ∧
    containsSub "FOO".data (pyWrite (.err "Unrecognized command : FOO".data)) = false :=
  ⟨rfl, rfl, rfl, rfl⟩

/-- C5: the claim states `FLUSH` (any casing) is recognized and invokes
the flush handler.  The code refutes it: the command table key is the
misspelled `'FlUSH'` (source line 169), which the upper-cased request
token `FLUSH` never equals, so every casing of `flush` is answered
`Unrecognized command : FLUSH`; the handler itself (which would return
the removed-entry count and clear the store) is unreachable through
dispatch. -/
theorem claim5_flush_key_typo :
    get_response [(.str "k".data, .str "v".data)] (.str "FLUSH".data) =
      (.error (.commandError "Unrecognized command : FLUSH".data),
       [(.str "k".data, .str "v".data)]) ∧
    get_response [(.str "k".data, .str "v".data)] (.str "flush".data) =
      (.error (.commandError "Unrecognized command : FLUSH".data),
       [(.str "k".data, .str "v".data)]) ∧
    pyUpper "flush".data = "FLUSH".data ∧
    lookupCommand (.str "FLUSH".data) = Option.none ∧
    Server.flush [(.str "k".data, .str "v".data)] [] = (.ok (.int 1), []) :=
  ⟨rfl, rfl, rfl, rfl, rfl⟩

/-- C6 counterexample: at the concrete frame `#junk\r\n`, whose leading
tag byte is invalid, decoding fails with `CommandError('bad request')` —
the command-layer error kind — not with a `ProtocolError`, which the
program does not define. -/
theorem claim6_protocol_error_counterexample :
    decode "#junk\r\n".data = .error (.commandError "bad request".data) := rfl

/-- C6 (amended): decoding fails with `Disconnect` when the stream yields
zero bytes at a request boundary, which terminates the connection loop
without writing anything; and when the leading tag byte is not one of
`+ - : $ * %` it fails with `CommandError('bad request')` (the code
defines no `ProtocolError`). -/
theorem claim6_decode_error_kinds :
    (∀ fuel, handle_request (fuel + 1) [] = .error .disconnect) ∧
    (decode [] = .error .disconnect) ∧
    (∀ fuel (c : Char) (s : List Char),
        c ≠ '+' → c ≠ '-' → c ≠ ':' → c ≠ '$' → c ≠ '*' → c ≠ '%' →
        handle_request (fuel + 1) (c :: s) = .error (.commandError "bad request".data)) ∧
    (∀ fuel kv, connection_handler (fuel + 1) kv [] = ([], kv)) := by
  refine ⟨?_, rfl, ?_, ?_⟩
  · intro fuel
    simp [handle_request]
  · intro fuel c s h1 h2 h3 h4 h5 h6
    unfold handle_request
    rw [if_neg h1, if_neg h2, if_neg h3, if_neg h4, if_neg h5, if_neg h6]
  · intro fuel kv
    simp [connection_handler, decode, handle_request]

/-- Witness for the C6 theorem at concrete inputs. -/
theorem claim6_decode_error_kinds_witness :
    handle_request 1 [] = .error .disconnect ∧
    handle_request 1 ['#'] = .error (.commandError "bad request".data) ∧
    connection_handler 1 [] [] = ([], []) :=
  ⟨claim6_decode_error_kinds.1 0,
   claim6_decode_error_kinds.2.2.1 0 '#' [] (by decide) (by decide) (by decide)
     (by decide) (by decide) (by decide),
   claim6_decode_error_kinds.2.2.2 0 []⟩

/-- C7 counterexample: the concrete frame `*-1\r\n`, whose count is
negative, does not fail at all — it decodes to the empty array (the
`range` over a negative count is empty). -/
theorem claim7_negative_count_counterexample :
    decode "*-1\r\n".data = .ok (.list [], []) := rfl

/-- C7 (amended): decoding an array frame reads a count line; every count
at most zero — in particular every negative count — yields the empty
array without consuming further input and without error; a non-negative
count `n` decodes exactly `n` further values recursively via the full tag
dispatch, preserving order (stated for frames whose elements are
integers and CR/LF-free simple strings, which the codec frames
faithfully). -/
theorem claim7_array_count :
    (∀ (n : Int) (fuel : Nat) (rest : List Char), n ≤ 0 →
        handle_request (fuel + 1) ('*' :: (pyStrOfInt n ++ '\r' :: '\n' :: rest)) =
          .ok (.list [], rest)) ∧
    (∀ (vs : List PyVal) (fuel : Nat) (rest : List Char), vs.all simpleTok = true →
        handle_request (vs.length + fuel + 2)
            ('*' :: (pyStrOfNat vs.length ++ '\r' :: '\n' :: (pyWriteList vs ++ rest))) =
          .ok (.list vs, rest)) := by
  constructor
  · intro n fuel rest hn
    have hnl : '\n' ∉ pyStrOfInt n ++ ['\r'] := by
      intro hm
      rcases List.mem_append.mp hm with hm | hm
      · exact newline_not_mem_pyStrOfInt n hm
      · simp at hm
    unfold handle_request
    rw [if_neg (by decide), if_neg (by decide), if_neg (by decide), if_neg (by decide),
      if_pos rfl]
    rw [show pyStrOfInt n ++ '\r' :: '\n' :: rest =
      (pyStrOfInt n ++ ['\r']) ++ '\n' :: rest by simp]
    rw [pyReadline_append _ _ hnl]
    have hjoin : (pyStrOfInt n ++ ['\r']) ++ ['\n'] = pyStrOfInt n ++ ['\r', '\n'] := by simp
    simp only [hjoin, pyRstrip_append_crlf _ (pyStrOfInt_ne_crlf n), pyInt_pyStrOfInt n,
      Int.toNat_of_nonpos hn, decode_seq]
  · intro vs fuel rest hall
    have hnl : '\n' ∉ pyStrOfNat vs.length ++ ['\r'] := by
      intro hm
      rcases List.mem_append.mp hm with hm | hm
      · have := mem_ten_ne_crlf _ (mem_pyStrOfNat _ _ hm)
        simp at this
      · simp at hm
    rw [show vs.length + fuel + 2 = (vs.length + fuel + 1) + 1 from rfl]
    unfold handle_request
    rw [if_neg (by decide), if_neg (by decide), if_neg (by decide), if_neg (by decide),
      if_pos rfl]
    rw [show pyStrOfNat vs.length ++ '\r' :: '\n' :: (pyWriteList vs ++ rest) =
      (pyStrOfNat vs.length ++ ['\r']) ++ '\n' :: (pyWriteList vs ++ rest) by simp]
    rw [pyReadline_append _ _ hnl]
    have hjoin : (pyStrOfNat vs.length ++ ['\r']) ++ ['\n'] =
        pyStrOfNat vs.length ++ ['\r', '\n'] := by simp
    have hrs : pyRstrip (pyStrOfNat vs.length ++ ['\r', '\n']) = pyStrOfNat vs.length :=
      pyRstrip_append_crlf _ (fun c hc => mem_ten_ne_crlf c (mem_pyStrOfNat _ c hc))
    simp only [hjoin, hrs, pyInt_pyStrOfNat, Int.toNat_ofNat,
      decode_seq_pyWriteList vs fuel rest hall]

/-- Witness for the C7 theorem at concrete inputs. -/
theorem claim7_array_count_witness :
    handle_request 1 ('*' :: (pyStrOfInt (-1) ++ '\r' :: '\n' :: [])) = .ok (.list [], []) ∧
    handle_request 3 ('*' :: (pyStrOfNat 1 ++ '\r' :: '\n' :: (pyWriteList [.int 7] ++ []))) =
      .ok (.list [.int 7], []) :=
  ⟨claim7_array_count.1 (-1) 0 [] (by decide),
   claim7_array_count.2 [.int 7] 0 [] (by decide)⟩

/-- C8: the claim states the null binary encodes to exactly the 5 bytes
`$-1\r\n` (decoding back to absent without reading a body) and a
zero-length byte string encodes to `$0\r\n\r\n`.  The null half holds,
but the empty-binary half is refuted: the f-string interpolates the repr
of the bytes (source line 106), so `b""` is framed as the 9 bytes
`$0\r\nb''\r\n`.  Decoding the well-formed frame `$0\r\n\r\n` does yield
the zero-length value, which is distinct from absent. -/
theorem claim8_null_vs_empty :
    pyWrite PyVal.none = "$-1\r\n".data ∧
    ("$-1\r\n".data).length = 5 ∧
    decode "$-1\r\nXYZ".data = .ok (.none, "XYZ".data) ∧
    pyWrite (.bytes []) = "$0\r\nb\x27\x27\r\n".data ∧
    pyWrite (.bytes []) ≠ "$0\r\n\r\n".data ∧
    decode "$0\r\n\r\n".data = .ok (.bytes [], []) ∧
    PyVal.bytes [] ≠ PyVal.none := by
  refine ⟨rfl, rfl, rfl, rfl, by decide, rfl, ?_⟩
  intro h
  cases h

/-- C9: the claim states an odd-length `MSET` argument list fails with an
explicit `CommandError`.  The code refutes it: `zip(items[::2],
items[1::2])` silently drops the trailing key (source line 159), so
`mset('a', '1', 'b')` stores only `a -> 1`, returns `1` with no error,
and the dropped key `b` is absent from the store. -/
theorem claim9_mset_odd_silent :
    Server.mset [] [.str "a".data, .str "1".data, .str "b".data] =
      (.ok (.int 1), [(.str "a".data, .str "1".data)]) ∧
    kvLookup [(.str "a".data, .str "1".data)] (.str "b".data) = .none ∧
    get_response [] (.list [.str "MSET".data, .str "a".data, .str "1".data,
      .str "b".data]) = (.ok (.int 1), [(.str "a".data, .str "1".data)]) :=
  ⟨rfl, rfl, rfl⟩

/-- C10: `get` and `mget` are read-only — for every store, key and key
list, both the bare handlers and full dispatch through `get_response`
leave the store component exactly as it was. -/
theorem claim10_get_mget_readonly :
    ∀ (kv : Store) (key : PyVal) (keys args : List PyVal),
      (Server.get kv args).2 = kv ∧
      (Server.mget kv keys).2 = kv ∧
      (get_response kv (.list [.str "GET".data, key])).2 = kv ∧
      (get_response kv (.list (.str "MGET".data :: keys))).2 = kv := by
  intro kv key keys args
  refine ⟨Server_get_snd kv args, Server_mget_snd kv keys, ?_, ?_⟩
  · rw [get_response_GET_eq kv key]
    exact Server_get_snd kv [key]
  · rw [get_response_MGET_eq kv keys]
    exact Server_mget_snd kv keys

end DbServer
